import Mathlib

/-!
Verification of the story-generation backend (`src/llm-story-app/backend/server.js`).

The server is shallowly embedded: JSON values exchanged with the upstream
service are modelled by the inductive type `JsVal`, the response-shape
normalizer `extractTextFromDeepInfra`, the `POST /api/generate-story` handler
and its image loop are translated into executable Lean functions, and the
upstream HTTP calls are abstracted by outcome oracles (`TextOutcome`,
`ImgOutcome`) supplied as arguments.

Modelling notes:
* `JsVal` covers the values producible by `resp.json()` / `express.json()`:
  JSON (no `undefined`).  Numeric payloads are modelled as integers; the
  claims under verification exercise only integer-valued numbers.
* Objects are ordered association lists.  JavaScript objects obtained from
  JSON parsing have pairwise-distinct keys; the predicate `JsVal.wfB` states
  that domain condition where a theorem ranges over objects.
* `JSON.stringify` and `JSON.parse` (platform builtins used by the server)
  are modelled at the character-list level by `strVChars` / `jsonParse`.
-/

/-- A JavaScript value obtained from JSON parsing (`resp.json()` or the
request body): `null`, booleans, (integer) numbers, strings, arrays, and
objects as ordered field lists. -/
inductive JsVal where
  | null : JsVal
  | bool : Bool → JsVal
  | num : Int → JsVal
  | str : String → JsVal
  | arr : List JsVal → JsVal
  | obj : List (String × JsVal) → JsVal

/-- JavaScript truthiness of a `JsVal` (`if (x)`): `null`, `false`, `0`
and `""` are falsy; arrays and objects are always truthy. -/
def JsVal.truthy : JsVal → Bool
  | .null => false
  | .bool b => b
  | .num n => n != 0
  | .str s => s != ""
  | .arr _ => true
  | .obj _ => true

/-- `typeof v === "string"`. -/
def JsVal.isStr : JsVal → Bool
  | .str _ => true
  | _ => false

/-- `Array.isArray(v)`. -/
def JsVal.isArr : JsVal → Bool
  | .arr _ => true
  | _ => false

/-- First-match lookup in an object's field list (JS property access on an
object; keys are unique in the modelled domain). -/
def lookupField : List (String × JsVal) → String → Option JsVal
  | [], _ => none
  | (k', v) :: rest, k => if k' = k then some v else lookupField rest k

/-- JS property access `v.k`: `none` models `undefined` (absent property or
access on a non-object). -/
def getProp (v : JsVal) (k : String) : Option JsVal :=
  match v with
  | .obj fs => lookupField fs k
  | _ => none

/-- Truthiness of a possibly-absent property (`if (v.k)`). -/
def truthyOpt : Option JsVal → Bool
  | none => false
  | some v => v.truthy

/-- Nullish-aware property read: `none` when the property is absent
(`undefined`) or holds `null`, so that `a.k ?? b` is `nsGet a k <|> b`. -/
def nsGet (v : JsVal) (k : String) : Option JsVal :=
  match getProp v k with
  | some .null => none
  | o => o

/-- JS index access `v?.[0]`: array head, first character of a string,
property `"0"` of an object; `undefined` otherwise. -/
def jsIdx0 : JsVal → Option JsVal
  | .arr (x :: _) => some x
  | .str s =>
    match s.data with
    | c :: _ => some (.str (String.singleton c))
    | [] => none
  | .obj fs => lookupField fs "0"
  | _ => none

/-! ### Decimal printing of numbers (`String(n)` / `JSON.stringify(n)`) -/

/-- The decimal digit character for `n < 10`. -/
def digitCh (n : Nat) : Char := Char.ofNat (48 + n)

/-- Decimal digits of a natural number, most significant first. -/
def natToChars (n : Nat) : List Char :=
  if _h : n < 10 then [digitCh n]
  else natToChars (n / 10) ++ [digitCh (n % 10)]
  termination_by n
  decreasing_by
    apply Nat.div_lt_self <;> omega

/-- Decimal printing of an integer (how JavaScript prints the integral
numbers this service handles). -/
def strNum : Int → List Char
  | .ofNat m => natToChars m
  | .negSucc m => '-' :: natToChars (m + 1)

/-! ### String escaping (`JSON.stringify` on strings) -/

/-- Lowercase hex digit character for `n < 16`. -/
def hexCh (n : Nat) : Char :=
  if n < 10 then Char.ofNat (48 + n) else Char.ofNat (87 + n)

/-- `JSON.stringify` escaping of one character: quote and backslash are
backslash-escaped, the named control escapes are used where they exist, the
remaining control characters become `\u00XX`, anything else is literal. -/
def escChar (c : Char) : List Char :=
  if c = '"' then ['\\', '"']
  else if c = '\\' then ['\\', '\\']
  else if c = '\x08' then ['\\', 'b']
  else if c = '\x09' then ['\\', 't']
  else if c = '\x0a' then ['\\', 'n']
  else if c = '\x0c' then ['\\', 'f']
  else if c = '\x0d' then ['\\', 'r']
  else if c.toNat < 32 then ['\\', 'u', '0', '0', hexCh (c.toNat / 16), hexCh (c.toNat % 16)]
  else [c]

/-- Escape a whole string body. -/
def escString : List Char → List Char
  | [] => []
  | c :: rest => escChar c ++ escString rest

/-! ### `JSON.stringify` -/

/-- The characters of the literal `null`. -/
def nullChars : List Char := ['n', 'u', 'l', 'l']

/-- The characters of the boolean literals. -/
def boolChars (b : Bool) : List Char :=
  if b then ['t', 'r', 'u', 'e'] else ['f', 'a', 'l', 's', 'e']

mutual

/-- Characters of `JSON.stringify v` (no whitespace is emitted, field order
is preserved — as V8 does for the objects this service builds). -/
def strVChars : JsVal → List Char
  | .null => nullChars
  | .bool b => boolChars b
  | .num n => strNum n
  | .str s => '"' :: escString s.data ++ ['"']
  | .arr [] => ['[', ']']
  | .arr (x :: xs) => '[' :: (strVChars x ++ strTailChars xs) ++ [']']
  | .obj [] => ['\x7b', '\x7d']
  | .obj ((k, v) :: fs) =>
    '\x7b' :: ('"' :: escString k.data ++ '"' :: ':' :: strVChars v ++ strOTailChars fs) ++ ['\x7d']

/-- Stringified remainder of an array: `,elem` for each further element. -/
def strTailChars : List JsVal → List Char
  | [] => []
  | x :: xs => ',' :: strVChars x ++ strTailChars xs

/-- Stringified remainder of an object: `,"key":value` for each further field. -/
def strOTailChars : List (String × JsVal) → List Char
  | [] => []
  | (k, v) :: fs => ',' :: '"' :: escString k.data ++ '"' :: ':' :: strVChars v ++ strOTailChars fs

end

/-- `JSON.stringify` as a Lean `String`. -/
def JsVal.stringify (v : JsVal) : String := String.mk (strVChars v)

/-- Pairwise-distinct key check for an object's field names. -/
def keysNodup : List String → Bool
  | [] => true
  | k :: ks => !(ks.contains k) && keysNodup ks

mutual

/-- Domain condition satisfied by every value `JSON.parse` can produce:
each object's keys are pairwise distinct, recursively. -/
def JsVal.wfB : JsVal → Bool
  | .null => true
  | .bool _ => true
  | .num _ => true
  | .str _ => true
  | .arr xs => wfListB xs
  | .obj fs => keysNodup (fs.map Prod.fst) && wfFieldsB fs

/-- `wfB` on every element of a list. -/
def wfListB : List JsVal → Bool
  | [] => true
  | x :: xs => x.wfB && wfListB xs

/-- `wfB` on every field value. -/
def wfFieldsB : List (String × JsVal) → Bool
  | [] => true
  | (_, v) :: fs => v.wfB && wfFieldsB fs

end

/-! ### `JSON.parse`

A character-level model of the platform's JSON parser, used to state the
spec's round-trip property for unrecognized payloads.  Recursion is fuelled;
`jsonParse` supplies fuel sufficient for any input (shown by
`needV_le_strVChars`).  Fidelity notes: numbers are parsed as integers
(fractions/exponents are outside the modelled domain), and `\uXXXX` escapes
denoting surrogates are outside the domain of Lean `Char`. -/

/-- JSON insignificant whitespace. -/
def isWsCh (c : Char) : Bool := c = ' ' || c = '\t' || c = '\n' || c = '\r'

/-- Skip insignificant whitespace. -/
def skipWs (cs : List Char) : List Char := cs.dropWhile isWsCh

/-- ASCII decimal digit test. -/
def isDigitCh (c : Char) : Bool := 48 ≤ c.toNat && c.toNat ≤ 57

/-- Numeric value of a hex digit character, if it is one. -/
def hexDigitVal (c : Char) : Option Nat :=
  if 48 ≤ c.toNat && c.toNat ≤ 57 then some (c.toNat - 48)
  else if 97 ≤ c.toNat && c.toNat ≤ 102 then some (c.toNat - 87)
  else if 65 ≤ c.toNat && c.toNat ≤ 70 then some (c.toNat - 55)
  else none

/-- Value of a digit character. -/
def digitVal (c : Char) : Nat := c.toNat - 48

/-- Accumulate a run of decimal digits into a natural number. -/
def natFromChars (ds : List Char) : Nat :=
  ds.foldl (fun a c => a * 10 + digitVal c) 0

/-- Parse a nonempty run of decimal digits. -/
def parseDigits (cs : List Char) : Option (Nat × List Char) :=
  let ds := cs.takeWhile isDigitCh
  if ds.isEmpty then none else some (natFromChars ds, cs.dropWhile isDigitCh)

/-- Simple escape characters after a backslash. -/
def unescSimple (e : Char) : Option Char :=
  if e = '"' then some '"'
  else if e = '\\' then some '\\'
  else if e = '/' then some '/'
  else if e = 'b' then some '\x08'
  else if e = 'f' then some '\x0c'
  else if e = 'n' then some '\x0a'
  else if e = 'r' then some '\x0d'
  else if e = 't' then some '\x09'
  else none

/-- Parse the body of a JSON string (the opening quote already consumed),
returning the decoded characters and the input after the closing quote. -/
def parseStringBody : List Char → Option (List Char × List Char)
  | [] => none
  | c :: rest =>
    if c = '"' then some ([], rest)
    else if c = '\\' then
      match rest with
      | [] => none
      | e :: rest' =>
        if e = 'u' then
          match rest' with
          | h1 :: h2 :: h3 :: h4 :: rest'' =>
            match hexDigitVal h1, hexDigitVal h2, hexDigitVal h3, hexDigitVal h4 with
            | some a, some b, some c', some d =>
              (parseStringBody rest'').map fun p =>
                (Char.ofNat (a * 4096 + b * 256 + c' * 16 + d) :: p.1, p.2)
            | _, _, _, _ => none
          | _ => none
        else
          match unescSimple e with
          | some u => (parseStringBody rest').map fun p => (u :: p.1, p.2)
          | none => none
    else if c.toNat < 32 then none
    else (parseStringBody rest).map fun p => (c :: p.1, p.2)

/-- Match an expected literal tail (of `null`, `true`, `false`). -/
def stripLit : List Char → List Char → Option (List Char)
  | [], cs => some cs
  | _ :: _, [] => none
  | l :: ls, c :: cs => if c = l then stripLit ls cs else none

mutual

/-- Fuelled JSON value parser. -/
def parseV : Nat → List Char → Option (JsVal × List Char)
  | 0, _ => none
  | f + 1, cs =>
    match skipWs cs with
    | [] => none
    | c :: rest =>
      if c = 'n' then (stripLit ['u', 'l', 'l'] rest).map fun r => (.null, r)
      else if c = 't' then (stripLit ['r', 'u', 'e'] rest).map fun r => (.bool true, r)
      else if c = 'f' then (stripLit ['a', 'l', 's', 'e'] rest).map fun r => (.bool false, r)
      else if c = '"' then (parseStringBody rest).map fun p => (.str (String.mk p.1), p.2)
      else if c = '[' then parseArr f rest
      else if c = '\x7b' then parseObj f rest
      else if c = '-' then (parseDigits rest).map fun p => (.num (-(p.1 : Int)), p.2)
      else if isDigitCh c then (parseDigits (c :: rest)).map fun p => (.num (p.1 : Int), p.2)
      else none

/-- Parse the inside of an array (after `[`). -/
def parseArr : Nat → List Char → Option (JsVal × List Char)
  | 0, _ => none
  | f + 1, cs =>
    match skipWs cs with
    | [] => none
    | c :: rest =>
      if c = ']' then some (.arr [], rest)
      else
        match parseV f (c :: rest) with
        | none => none
        | some (v, r) =>
          match parseArrTail f r with
          | none => none
          | some (vs, r') => some (.arr (v :: vs), r')

/-- Parse array elements after the first (`,elem`* `]`). -/
def parseArrTail : Nat → List Char → Option (List JsVal × List Char)
  | 0, _ => none
  | f + 1, cs =>
    match skipWs cs with
    | [] => none
    | c :: rest =>
      if c = ']' then some ([], rest)
      else if c = ',' then
        match parseV f rest with
        | none => none
        | some (v, r) =>
          match parseArrTail f r with
          | none => none
          | some (vs, r') => some (v :: vs, r')
      else none

/-- Parse one `"key":value` member, the key's opening quote already seen. -/
def parseMember : Nat → List Char → Option ((String × JsVal) × List Char)
  | 0, _ => none
  | f + 1, cs =>
    match parseStringBody cs with
    | none => none
    | some (k, r) =>
      match skipWs r with
      | ':' :: r' =>
        match parseV f r' with
        | none => none
        | some (v, r'') => some ((String.mk k, v), r'')
      | _ => none

/-- Parse the inside of an object (after the opening brace). -/
def parseObj : Nat → List Char → Option (JsVal × List Char)
  | 0, _ => none
  | f + 1, cs =>
    match skipWs cs with
    | [] => none
    | c :: rest =>
      if c = '\x7d' then some (.obj [], rest)
      else if c = '"' then
        match parseMember f rest with
        | none => none
        | some (kv, r) =>
          match parseObjTail f r with
          | none => none
          | some (fs, r') => some (.obj (kv :: fs), r')
      else none

/-- Parse object members after the first (`,"key":value`* and closing brace). -/
def parseObjTail : Nat → List Char → Option (List (String × JsVal) × List Char)
  | 0, _ => none
  | f + 1, cs =>
    match skipWs cs with
    | [] => none
    | c :: rest =>
      if c = '\x7d' then some ([], rest)
      else if c = ',' then
        match skipWs rest with
        | '"' :: r0 =>
          match parseMember f r0 with
          | none => none
          | some (kv, r) =>
            match parseObjTail f r with
            | none => none
            | some (fs, r') => some (kv :: fs, r')
        | _ => none
      else none

end

/-- `JSON.parse`: parse a complete value, requiring only whitespace to
remain.  The fuel `2 * length + 2` is sufficient for every parse (each
recursive level consumes input). -/
def jsonParse (s : String) : Option JsVal :=
  match parseV (2 * s.data.length + 2) s.data with
  | some (v, rest) => if skipWs rest = [] then some v else none
  | none => none

/-! ### Toolbox lemmas for the round-trip proof -/

theorem charEq_toNat (c d : Char) : c = d ↔ c.toNat = d.toNat :=
  Char.ext_iff.trans UInt32.ext_iff

theorem isDigitCh_bounds {c : Char} (h : isDigitCh c = true) :
    48 ≤ c.toNat ∧ c.toNat ≤ 57 := by
  simpa [isDigitCh, Bool.and_eq_true, decide_eq_true_eq] using h

theorem isWsCh_of_digit {c : Char} (h : isDigitCh c = true) : isWsCh c = false := by
  rcases hw : isWsCh c
  · rfl
  · exfalso
    simp only [isWsCh, Bool.or_eq_true, decide_eq_true_eq] at hw
    rcases hw with ((h1 | h1) | h1) | h1 <;> subst h1 <;> simp [isDigitCh] at h

theorem skipWs_cons_of_not_ws {c : Char} {l : List Char} (h : isWsCh c = false) :
    skipWs (c :: l) = c :: l := by
  simp [skipWs, List.dropWhile_cons, h]

theorem takeWhile_append_all {p : Char → Bool} {l : List Char} (r : List Char)
    (h : ∀ c ∈ l, p c = true) : (l ++ r).takeWhile p = l ++ r.takeWhile p := by
  induction l with
  | nil => simp
  | cons c t ih =>
    simp only [List.cons_append, List.takeWhile_cons, h c (by simp)]
    simp [ih (fun x hx => h x (by simp [hx]))]

theorem dropWhile_append_all {p : Char → Bool} {l : List Char} (r : List Char)
    (h : ∀ c ∈ l, p c = true) : (l ++ r).dropWhile p = r.dropWhile p := by
  induction l with
  | nil => simp
  | cons c t ih =>
    simp only [List.cons_append, List.dropWhile_cons, h c (by simp)]
    simp [ih (fun x hx => h x (by simp [hx]))]

/-- Heads that stop a digit run. -/
def noDigitHead : List Char → Bool
  | [] => true
  | c :: _ => !isDigitCh c

theorem takeWhile_digit_nil {rest : List Char} (h : noDigitHead rest = true) :
    rest.takeWhile isDigitCh = [] := by
  cases rest with
  | nil => rfl
  | cons c t =>
    simp only [noDigitHead, Bool.not_eq_true'] at h
    simp [List.takeWhile_cons, h]

theorem dropWhile_digit_id {rest : List Char} (h : noDigitHead rest = true) :
    rest.dropWhile isDigitCh = rest := by
  cases rest with
  | nil => rfl
  | cons c t =>
    simp only [noDigitHead, Bool.not_eq_true'] at h
    simp [List.dropWhile_cons, h]

theorem digitCh_isDigit {n : Nat} (h : n < 10) : isDigitCh (digitCh n) = true := by
  interval_cases n <;> decide

theorem digitCh_val {n : Nat} (h : n < 10) : (digitCh n).toNat = 48 + n := by
  interval_cases n <;> decide

theorem natToChars_ne_nil (n : Nat) : natToChars n ≠ [] := by
  rw [natToChars]
  split <;> simp

theorem natToChars_digits (n : Nat) : ∀ c ∈ natToChars n, isDigitCh c = true := by
  induction n using Nat.strong_induction_on with
  | _ n ih =>
    rw [natToChars]
    split
    · next h => simpa using digitCh_isDigit h
    · next h =>
      intro c hc
      rcases List.mem_append.mp hc with hc | hc
      · exact ih (n / 10) (Nat.div_lt_self (by omega) (by omega)) c hc
      · simp only [List.mem_singleton] at hc
        subst hc
        exact digitCh_isDigit (Nat.mod_lt _ (by omega))

theorem foldl_natToChars (n : Nat) : ∀ a : Nat,
    (natToChars n).foldl (fun a c => a * 10 + digitVal c) a
      = a * 10 ^ (natToChars n).length + n := by
  induction n using Nat.strong_induction_on with
  | _ n ih =>
    intro a
    rw [natToChars]
    split
    · next h =>
      simp [digitVal, digitCh_val h]
    · next h =>
      rw [List.foldl_append, ih (n / 10) (Nat.div_lt_self (by omega) (by omega)) a]
      simp only [List.foldl_cons, List.foldl_nil, List.length_append, List.length_singleton]
      rw [digitVal, digitCh_val (Nat.mod_lt _ (by omega)), pow_succ]
      have hmod := Nat.div_add_mod n 10
      have : 48 + n % 10 - 48 = n % 10 := by omega
      rw [this]
      ring_nf
      omega

theorem parseDigits_natToChars {rest : List Char} (n : Nat) (h : noDigitHead rest = true) :
    parseDigits (natToChars n ++ rest) = some (n, rest) := by
  have hall := natToChars_digits n
  rw [parseDigits]
  have ht : (natToChars n ++ rest).takeWhile isDigitCh = natToChars n := by
    rw [takeWhile_append_all rest hall, takeWhile_digit_nil h, List.append_nil]
  have hd : (natToChars n ++ rest).dropWhile isDigitCh = rest := by
    rw [dropWhile_append_all rest hall, dropWhile_digit_id h]
  simp only [ht, hd, List.isEmpty_iff]
  rw [if_neg (natToChars_ne_nil n)]
  have := foldl_natToChars n 0
  simp only [natFromChars, this, Nat.zero_mul, Nat.zero_add]

theorem hexDigitVal_hexCh {n : Nat} (h : n < 16) : hexDigitVal (hexCh n) = some n := by
  interval_cases n <;> decide

theorem psb_escChar (c : Char) (tail : List Char) :
    parseStringBody (escChar c ++ tail)
      = (parseStringBody tail).map fun p => (c :: p.1, p.2) := by
  by_cases h1 : c = '"'
  · subst h1; rw [escChar]; simp only [List.cons_append, List.nil_append]
    rw [parseStringBody.eq_def]; simp [unescSimple]
  by_cases h2 : c = '\\'
  · subst h2; rw [escChar]; simp only [List.cons_append, List.nil_append]
    rw [parseStringBody.eq_def]; simp [unescSimple]
  by_cases h3 : c = '\x08'
  · subst h3; rw [escChar]; simp only [List.cons_append, List.nil_append]
    rw [parseStringBody.eq_def]; simp [unescSimple]
  by_cases h4 : c = '\x09'
  · subst h4; rw [escChar]; simp only [List.cons_append, List.nil_append]
    rw [parseStringBody.eq_def]; simp [unescSimple]
  by_cases h5 : c = '\x0a'
  · subst h5; rw [escChar]; simp only [List.cons_append, List.nil_append]
    rw [parseStringBody.eq_def]; simp [unescSimple]
  by_cases h6 : c = '\x0c'
  · subst h6; rw [escChar]; simp only [List.cons_append, List.nil_append]
    rw [parseStringBody.eq_def]; simp [unescSimple]
  by_cases h7 : c = '\x0d'
  · subst h7; rw [escChar]; simp only [List.cons_append, List.nil_append]
    rw [parseStringBody.eq_def]; simp [unescSimple]
  by_cases h8 : c.toNat < 32
  · have hesc : escChar c
        = ['\\', 'u', '0', '0', hexCh (c.toNat / 16), hexCh (c.toNat % 16)] := by
      rw [escChar]
      rw [if_neg h1, if_neg h2, if_neg h3, if_neg h4, if_neg h5, if_neg h6, if_neg h7,
        if_pos h8]
    rw [hesc]
    simp only [List.cons_append, List.nil_append]
    rw [parseStringBody.eq_def]
    have h0 : hexDigitVal '0' = some 0 := by decide
    simp only [h0, hexDigitVal_hexCh (show c.toNat / 16 < 16 by omega),
      hexDigitVal_hexCh (show c.toNat % 16 < 16 by omega)]
    have hv : 0 * 4096 + 0 * 256 + (c.toNat / 16 * 16 + c.toNat % 16) = c.toNat := by
      omega
    simp only [reduceIte, Nat.zero_mul, Nat.zero_add]
    have hv' : c.toNat / 16 * 16 + c.toNat % 16 = c.toNat := by omega
    rw [hv', Char.ofNat_toNat]
    simp
  · have hesc : escChar c = [c] := by
      rw [escChar]
      rw [if_neg h1, if_neg h2, if_neg h3, if_neg h4, if_neg h5, if_neg h6, if_neg h7,
        if_neg h8]
    rw [hesc]
    simp only [List.cons_append, List.nil_append]
    rw [parseStringBody.eq_def]
    simp [h1, h2, h8]

theorem psb_escString (l : List Char) (tail : List Char) :
    parseStringBody (escString l ++ '"' :: tail) = some (l, tail) := by
  induction l with
  | nil =>
    rw [escString, List.nil_append, parseStringBody.eq_def]
    simp
  | cons c t ih =>
    rw [escString, List.append_assoc, psb_escChar, ih]
    rfl

/-! ### Fuel accounting for the parser -/

mutual

/-- Fuel needed by `parseV` on the stringification of `v`. -/
def needV : JsVal → Nat
  | .null => 1
  | .bool _ => 1
  | .num _ => 1
  | .str _ => 1
  | .arr [] => 2
  | .arr (x :: xs) => 2 + needV x + needT xs
  | .obj [] => 2
  | .obj ((_, v) :: fs) => 3 + needV v + needOT fs

/-- Fuel needed by `parseArrTail` on a stringified array remainder. -/
def needT : List JsVal → Nat
  | [] => 1
  | x :: xs => 1 + needV x + needT xs

/-- Fuel needed by `parseObjTail` on a stringified object remainder. -/
def needOT : List (String × JsVal) → Nat
  | [] => 1
  | (_, v) :: fs => 2 + needV v + needOT fs

end

theorem needV_pos (v : JsVal) : 1 ≤ needV v := by
  cases v with
  | arr xs => cases xs <;> simp only [needV] <;> omega
  | obj fs => rcases fs with _ | ⟨⟨k, v⟩, fs⟩ <;> simp only [needV] <;> omega
  | _ => simp [needV]

theorem needT_pos (xs : List JsVal) : 1 ≤ needT xs := by
  cases xs <;> simp only [needT] <;> omega

theorem needOT_pos (fs : List (String × JsVal)) : 1 ≤ needOT fs := by
  rcases fs with _ | ⟨⟨k, v⟩, fs⟩ <;> simp only [needOT] <;> omega

theorem need_le_bounds : ∀ n : Nat,
    (∀ v : JsVal, sizeOf v ≤ n → needV v ≤ 2 * (strVChars v).length) ∧
    (∀ xs : List JsVal, sizeOf xs ≤ n → needT xs ≤ 2 * (strTailChars xs).length + 2) ∧
    (∀ fs : List (String × JsVal), sizeOf fs ≤ n →
      needOT fs ≤ 2 * (strOTailChars fs).length + 2) := by
  intro n
  induction n using Nat.strong_induction_on with
  | _ n ih =>
    refine ⟨?_, ?_, ?_⟩
    · intro v hn
      cases v with
      | null => simp [needV, strVChars, nullChars]
      | bool b => cases b <;> simp [needV, strVChars, boolChars]
      | num m =>
        have hne : strNum m ≠ [] := by
          cases m with
          | ofNat k => exact natToChars_ne_nil k
          | negSucc k => simp [strNum]
        have := List.length_pos.mpr hne
        simp only [needV, strVChars]
        omega
      | str s =>
        simp only [needV, strVChars, List.length_cons, List.length_append]
        omega
      | arr xs =>
        cases xs with
        | nil => simp [needV, strVChars]
        | cons x xs =>
          have hx : sizeOf x < n := by
            have : sizeOf x < sizeOf (JsVal.arr (x :: xs)) := by
              simp only [JsVal.arr.sizeOf_spec, List.cons.sizeOf_spec]
              omega
            omega
          have hxs : sizeOf xs < n := by
            have : sizeOf xs < sizeOf (JsVal.arr (x :: xs)) := by
              simp only [JsVal.arr.sizeOf_spec, List.cons.sizeOf_spec]
              omega
            omega
          have h1 := (ih (sizeOf x) hx).1 x le_rfl
          have h2 := (ih (sizeOf xs) hxs).2.1 xs le_rfl
          simp only [needV, strVChars, List.length_cons, List.length_append,
            List.length_singleton]
          omega
      | obj fs =>
        rcases fs with _ | ⟨⟨k, v⟩, fs⟩
        · simp [needV, strVChars]
        · have hv : sizeOf v < n := by
            have : sizeOf v < sizeOf (JsVal.obj ((k, v) :: fs)) := by
              simp only [JsVal.obj.sizeOf_spec, List.cons.sizeOf_spec, Prod.mk.sizeOf_spec]
              omega
            omega
          have hfs : sizeOf fs < n := by
            have : sizeOf fs < sizeOf (JsVal.obj ((k, v) :: fs)) := by
              simp only [JsVal.obj.sizeOf_spec, List.cons.sizeOf_spec, Prod.mk.sizeOf_spec]
              omega
            omega
          have h1 := (ih (sizeOf v) hv).1 v le_rfl
          have h2 := (ih (sizeOf fs) hfs).2.2 fs le_rfl
          simp only [needV, strVChars, List.length_cons, List.length_append,
            List.length_singleton]
          omega
    · intro xs hn
      cases xs with
      | nil => simp [needT, strTailChars]
      | cons x xs =>
        have hx : sizeOf x < n := by
          have : sizeOf x < sizeOf (x :: xs) := by
            simp only [List.cons.sizeOf_spec]
            omega
          omega
        have hxs : sizeOf xs < n := by
          have : sizeOf xs < sizeOf (x :: xs) := by
            simp only [List.cons.sizeOf_spec]
            omega
          omega
        have h1 := (ih (sizeOf x) hx).1 x le_rfl
        have h2 := (ih (sizeOf xs) hxs).2.1 xs le_rfl
        simp only [needT, strTailChars, List.length_cons, List.length_append]
        omega
    · intro fs hn
      rcases fs with _ | ⟨⟨k, v⟩, fs⟩
      · simp [needOT, strOTailChars]
      · have hv : sizeOf v < n := by
          have : sizeOf v < sizeOf ((k, v) :: fs) := by
            simp only [List.cons.sizeOf_spec, Prod.mk.sizeOf_spec]
            omega
          omega
        have hfs : sizeOf fs < n := by
          have : sizeOf fs < sizeOf ((k, v) :: fs) := by
            simp only [List.cons.sizeOf_spec, Prod.mk.sizeOf_spec]
            omega
          omega
        have h1 := (ih (sizeOf v) hv).1 v le_rfl
        have h2 := (ih (sizeOf fs) hfs).2.2 fs le_rfl
        simp only [needOT, strOTailChars, List.length_cons, List.length_append]
        omega

theorem needV_le (v : JsVal) : needV v ≤ 2 * (strVChars v).length :=
  (need_le_bounds (sizeOf v)).1 v le_rfl

/-! ### Head characters of stringified values -/

/-- Characters that can start a stringified JSON value. -/
def isValStart (c : Char) : Bool :=
  c = 'n' || c = 't' || c = 'f' || c = '"' || c = '[' || c = '\x7b' || c = '-' || isDigitCh c

theorem ne_of_pred {c x : Char} {p : Char → Bool} (h1 : p c = true) (h2 : p x = false) :
    c ≠ x := by
  intro he
  subst he
  rw [h1] at h2
  cases h2

theorem valStart_facts {c : Char} (h : isValStart c = true) :
    isWsCh c = false ∧ c ≠ ']' ∧ c ≠ ',' ∧ c ≠ '\x7d' := by
  simp only [isValStart, Bool.or_eq_true, decide_eq_true_eq] at h
  rcases h with ((((((h | h) | h) | h) | h) | h) | h) | h
  all_goals first
    | (subst h; exact ⟨by decide, by decide, by decide, by decide⟩)
    | exact ⟨isWsCh_of_digit h, ne_of_pred h (by decide), ne_of_pred h (by decide),
        ne_of_pred h (by decide)⟩

theorem strV_head (v : JsVal) :
    ∃ c t, strVChars v = c :: t ∧ isValStart c = true := by
  cases v with
  | null => exact ⟨'n', _, rfl, by decide⟩
  | bool b =>
    cases b with
    | false => exact ⟨'f', _, rfl, by decide⟩
    | true => exact ⟨'t', _, rfl, by decide⟩
  | num m =>
    cases m with
    | ofNat k =>
      obtain ⟨c, t, hct⟩ := List.exists_cons_of_ne_nil (natToChars_ne_nil k)
      refine ⟨c, t, by rw [show strVChars (.num (.ofNat k)) = natToChars k from rfl, hct], ?_⟩
      have hd : isDigitCh c = true := natToChars_digits k c (by simp [hct])
      simp [isValStart, hd]
    | negSucc k => exact ⟨'-', natToChars (k + 1), rfl, by decide⟩
  | str s => exact ⟨'"', _, rfl, by decide⟩
  | arr xs => cases xs <;> exact ⟨'[', _, rfl, by decide⟩
  | obj fs =>
    rcases fs with _ | ⟨⟨k, v⟩, fs⟩ <;> exact ⟨'\x7b', _, rfl, by decide⟩

theorem noDigitHead_strTail (xs : List JsVal) (rest : List Char) :
    noDigitHead (strTailChars xs ++ ']' :: rest) = true := by
  cases xs <;> simp [strTailChars, noDigitHead, isDigitCh]

theorem noDigitHead_strOTail (fs : List (String × JsVal)) (rest : List Char) :
    noDigitHead (strOTailChars fs ++ '\x7d' :: rest) = true := by
  rcases fs with _ | ⟨⟨k, v⟩, fs⟩ <;> simp [strOTailChars, noDigitHead, isDigitCh]

/-! ### The parser inverts the printer -/

theorem parseMember_rt {h : Nat} (k : String) (v : JsVal) (rest : List Char)
    (hV : parseV h (strVChars v ++ rest) = some (v, rest)) :
    parseMember (h + 1) (escString k.data ++ ('"' :: ':' :: (strVChars v ++ rest)))
      = some ((k, v), rest) := by
  have hsk : skipWs (':' :: (strVChars v ++ rest)) = ':' :: (strVChars v ++ rest) :=
    skipWs_cons_of_not_ws (by decide)
  simp only [parseMember, psb_escString, hsk, hV]

theorem parse_rt_aux : ∀ f : Nat,
    (∀ v rest, needV v ≤ f → noDigitHead rest = true →
      parseV f (strVChars v ++ rest) = some (v, rest)) ∧
    (∀ xs rest, needT xs ≤ f →
      parseArrTail f (strTailChars xs ++ ']' :: rest) = some (xs, rest)) ∧
    (∀ fs rest, needOT fs ≤ f →
      parseObjTail f (strOTailChars fs ++ '\x7d' :: rest) = some (fs, rest)) := by
  intro f
  induction f using Nat.strong_induction_on with
  | _ f ih =>
    rcases f with _ | fV
    · refine ⟨fun v _ hneed _ => ?_, fun xs _ hneed => ?_, fun fs _ hneed => ?_⟩
      · have := needV_pos v; omega
      · have := needT_pos xs; omega
      · have := needOT_pos fs; omega
    refine ⟨?_, ?_, ?_⟩
    · -- parseV
      intro v rest hneed hnd
      cases v with
      | null =>
        rw [show strVChars JsVal.null ++ rest = 'n' :: 'u' :: 'l' :: 'l' :: rest from rfl]
        simp only [parseV]
        rw [skipWs_cons_of_not_ws (by decide)]
        simp [stripLit]
      | bool b =>
        cases b with
        | true =>
          rw [show strVChars (JsVal.bool true) ++ rest = 't' :: 'r' :: 'u' :: 'e' :: rest from rfl]
          simp only [parseV]
          rw [skipWs_cons_of_not_ws (by decide)]
          simp [stripLit]
        | false =>
          rw [show strVChars (JsVal.bool false) ++ rest
              = 'f' :: 'a' :: 'l' :: 's' :: 'e' :: rest from rfl]
          simp only [parseV]
          rw [skipWs_cons_of_not_ws (by decide)]
          simp [stripLit]
      | num m =>
        cases m with
        | ofNat k =>
          obtain ⟨c, t, hct⟩ := List.exists_cons_of_ne_nil (natToChars_ne_nil k)
          have hd : isDigitCh c = true := natToChars_digits k c (by simp [hct])
          rw [show strVChars (.num (.ofNat k)) ++ rest = c :: (t ++ rest) from by
            rw [show strVChars (.num (.ofNat k)) = natToChars k from rfl, hct]; rfl]
          simp only [parseV]
          simp only [skipWs_cons_of_not_ws (isWsCh_of_digit hd),
            if_neg (ne_of_pred hd (by decide) : c ≠ 'n'),
            if_neg (ne_of_pred hd (by decide) : c ≠ 't'),
            if_neg (ne_of_pred hd (by decide) : c ≠ 'f'),
            if_neg (ne_of_pred hd (by decide) : c ≠ '"'),
            if_neg (ne_of_pred hd (by decide) : c ≠ '['),
            if_neg (ne_of_pred hd (by decide) : c ≠ '\x7b'),
            if_neg (ne_of_pred hd (by decide) : c ≠ '-'), if_pos hd]
          rw [show c :: (t ++ rest) = natToChars k ++ rest from by rw [hct]; rfl,
            parseDigits_natToChars k hnd]
          rfl
        | negSucc k =>
          rw [show strVChars (.num (.negSucc k)) ++ rest
              = '-' :: (natToChars (k + 1) ++ rest) from rfl]
          simp only [parseV]
          simp only [skipWs_cons_of_not_ws (by decide : isWsCh '-' = false),
            Char.reduceEq, reduceIte, parseDigits_natToChars (k + 1) hnd, Option.map_some']
          have hneg : (-((k + 1 : Nat) : Int)) = Int.negSucc k := by
            rw [Int.negSucc_eq]
            push_cast
            ring
          rw [hneg]
      | str s =>
        rw [show strVChars (.str s) ++ rest = '"' :: (escString s.data ++ '"' :: rest) from by
          show ('"' :: escString s.data ++ ['"']) ++ rest = _
          simp]
        simp only [parseV]
        simp only [skipWs_cons_of_not_ws (by decide : isWsCh '"' = false),
          Char.reduceEq, reduceIte, psb_escString]
        rfl
      | arr xs =>
        cases xs with
        | nil =>
          have hf : (1 : Nat) ≤ fV := by
            simp only [needV] at hneed
            omega
          rcases fV with _ | g
          · omega
          rw [show strVChars (.arr []) ++ rest = '[' :: (']' :: rest) from rfl]
          simp only [parseV]
          simp only [skipWs_cons_of_not_ws (by decide : isWsCh '[' = false),
            Char.reduceEq, reduceIte]
          simp only [parseArr]
          simp only [skipWs_cons_of_not_ws (by decide : isWsCh ']' = false),
            Char.reduceEq, reduceIte]
        | cons x xs =>
          have hf : 2 + needV x + needT xs ≤ fV + 1 := by
            simpa only [needV] using hneed
          have h1x := needV_pos x
          have h1t := needT_pos xs
          rcases fV with _ | g
          · omega
          obtain ⟨c, t, hct, hcs⟩ := strV_head x
          obtain ⟨hws, hne1, _, _⟩ := valStart_facts hcs
          rw [show strVChars (.arr (x :: xs)) ++ rest
              = '[' :: (strVChars x ++ (strTailChars xs ++ ']' :: rest)) from by
            show ('[' :: (strVChars x ++ strTailChars xs) ++ [']']) ++ rest = _
            simp]
          simp only [parseV]
          simp only [skipWs_cons_of_not_ws (by decide : isWsCh '[' = false),
            Char.reduceEq, reduceIte]
          simp only [parseArr]
          rw [show strVChars x ++ (strTailChars xs ++ ']' :: rest)
              = c :: (t ++ (strTailChars xs ++ ']' :: rest)) from by rw [hct]; rfl]
          simp only [skipWs_cons_of_not_ws hws, if_neg hne1]
          rw [show c :: (t ++ (strTailChars xs ++ ']' :: rest))
              = strVChars x ++ (strTailChars xs ++ ']' :: rest) from by rw [hct]; rfl]
          simp only [(ih g (by omega)).1 x (strTailChars xs ++ ']' :: rest) (by omega)
            (noDigitHead_strTail xs rest), (ih g (by omega)).2.1 xs rest (by omega)]
      | obj fs =>
        rcases fs with _ | ⟨⟨k, v⟩, fs⟩
        · have hf : (1 : Nat) ≤ fV := by
            simp only [needV] at hneed
            omega
          rcases fV with _ | g
          · omega
          rw [show strVChars (.obj []) ++ rest = '\x7b' :: ('\x7d' :: rest) from rfl]
          simp only [parseV]
          simp only [skipWs_cons_of_not_ws (by decide : isWsCh '\x7b' = false),
            Char.reduceEq, reduceIte]
          simp only [parseObj]
          simp only [skipWs_cons_of_not_ws (by decide : isWsCh '\x7d' = false),
            Char.reduceEq, reduceIte]
        · have hf : 3 + needV v + needOT fs ≤ fV + 1 := by
            simpa only [needV] using hneed
          have h1v := needV_pos v
          have h1o := needOT_pos fs
          rcases fV with _ | g
          · omega
          rcases g with _ | h
          · omega
          rw [show strVChars (.obj ((k, v) :: fs)) ++ rest
              = '\x7b' :: ('"' :: (escString k.data
                ++ ('"' :: ':' :: (strVChars v ++ (strOTailChars fs ++ '\x7d' :: rest))))) from by
            show ('\x7b' :: ('"' :: escString k.data ++ '"' :: ':' :: strVChars v
              ++ strOTailChars fs) ++ ['\x7d']) ++ rest = _
            simp]
          simp only [parseV]
          simp only [skipWs_cons_of_not_ws (by decide : isWsCh '\x7b' = false),
            Char.reduceEq, reduceIte]
          simp only [parseObj]
          simp only [skipWs_cons_of_not_ws (by decide : isWsCh '"' = false),
            Char.reduceEq, reduceIte]
          have hV := (ih h (by omega)).1 v (strOTailChars fs ++ '\x7d' :: rest) (by omega)
            (noDigitHead_strOTail fs rest)
          simp only [parseMember_rt k v (strOTailChars fs ++ '\x7d' :: rest) hV,
            (ih (h + 1) (by omega)).2.2 fs rest (by omega)]
    · -- parseArrTail
      intro xs rest hneed
      cases xs with
      | nil =>
        rw [show strTailChars [] ++ ']' :: rest = ']' :: rest from rfl]
        simp only [parseArrTail]
        simp only [skipWs_cons_of_not_ws (by decide : isWsCh ']' = false),
          Char.reduceEq, reduceIte]
      | cons x xs =>
        have hf : 1 + needV x + needT xs ≤ fV + 1 := by
          simpa only [needT] using hneed
        have h1x := needV_pos x
        have h1t := needT_pos xs
        rw [show strTailChars (x :: xs) ++ ']' :: rest
            = ',' :: (strVChars x ++ (strTailChars xs ++ ']' :: rest)) from by
          show (',' :: strVChars x ++ strTailChars xs) ++ ']' :: rest = _
          simp]
        simp only [parseArrTail]
        simp only [skipWs_cons_of_not_ws (by decide : isWsCh ',' = false),
          Char.reduceEq, reduceIte]
        simp only [(ih fV (by omega)).1 x (strTailChars xs ++ ']' :: rest) (by omega)
          (noDigitHead_strTail xs rest), (ih fV (by omega)).2.1 xs rest (by omega)]
    · -- parseObjTail
      intro fs rest hneed
      rcases fs with _ | ⟨⟨k, v⟩, fs⟩
      · rw [show strOTailChars [] ++ '\x7d' :: rest = '\x7d' :: rest from rfl]
        simp only [parseObjTail]
        simp only [skipWs_cons_of_not_ws (by decide : isWsCh '\x7d' = false),
          Char.reduceEq, reduceIte]
      · have hf : 2 + needV v + needOT fs ≤ fV + 1 := by
          simpa only [needOT] using hneed
        have h1v := needV_pos v
        have h1o := needOT_pos fs
        rw [show strOTailChars ((k, v) :: fs) ++ '\x7d' :: rest
            = ',' :: ('"' :: (escString k.data
              ++ ('"' :: ':' :: (strVChars v ++ (strOTailChars fs ++ '\x7d' :: rest))))) from by
          show (',' :: '"' :: escString k.data ++ '"' :: ':' :: strVChars v
            ++ strOTailChars fs) ++ '\x7d' :: rest = _
          simp]
        simp only [parseObjTail]
        simp only [skipWs_cons_of_not_ws (by decide : isWsCh ',' = false),
          skipWs_cons_of_not_ws (by decide : isWsCh '"' = false),
          Char.reduceEq, reduceIte]
        rcases fV with _ | h
        · omega
        have hV := (ih h (by omega)).1 v (strOTailChars fs ++ '\x7d' :: rest) (by omega)
          (noDigitHead_strOTail fs rest)
        simp only [parseMember_rt k v (strOTailChars fs ++ '\x7d' :: rest) hV,
          (ih (h + 1) (by omega)).2.2 fs rest (by omega)]

/-- `JSON.parse ∘ JSON.stringify` is the identity on the modelled JSON
domain: the round-trip property. -/
theorem jsonParse_stringify (v : JsVal) : jsonParse v.stringify = some v := by
  have hlen := needV_le v
  have h1 := (parse_rt_aux (2 * (strVChars v).length + 2)).1 v [] (by omega) rfl
  rw [List.append_nil] at h1
  unfold jsonParse JsVal.stringify
  rw [show (String.mk (strVChars v)).data = strVChars v from rfl, h1]
  rfl

/-! ### `String(v)` coercion (template literals, `Array.prototype.join`) -/

mutual

/-- JavaScript `String(v)` on the modelled domain: arrays join their
elements with `","`, objects print as `[object Object]`. -/
def jsToStr : JsVal → String
  | .null => "null"
  | .bool true => "true"
  | .bool false => "false"
  | .num n => String.mk (strNum n)
  | .str s => s
  | .arr xs => arrJoin "," xs
  | .obj _ => "[object Object]"

/-- `Array.prototype.join(sep)`: `null` elements become the empty string,
other elements are `String()`-coerced. -/
def arrJoin (sep : String) : List JsVal → String
  | [] => ""
  | [.null] => ""
  | [v] => jsToStr v
  | .null :: rest => sep ++ arrJoin sep rest
  | v :: rest => jsToStr v ++ sep ++ arrJoin sep rest

end

/-- JavaScript `Number(v)` coercion on the values this service receives;
`none` models `NaN`.  Strings are handled for the integer-valued inputs the
service's callers supply (optionally signed decimal digits, with
surrounding whitespace); composite values are outside the modelled domain
and map to `NaN` except the empty array. -/
def jsToNumber : JsVal → Option Int
  | .null => some 0
  | .bool b => some (if b then 1 else 0)
  | .num n => some n
  | .str s =>
    match (s.data.dropWhile isWsCh).reverse.dropWhile isWsCh |>.reverse with
    | [] => some 0
    | '-' :: ds => if ds ≠ [] && ds.all isDigitCh then some (-(natFromChars ds : Int)) else none
    | ds => if ds.all isDigitCh then some (natFromChars ds : Int) else none
  | .arr [] => some 0
  | _ => none

/-! ### The response-shape normalizer (`extractTextFromDeepInfra`) -/

/-- Guard of the `results` branch:
`Array.isArray(respJson.results) && respJson.results[0]`. -/
def resultsCond (v : JsVal) : Bool :=
  match getProp v "results" with
  | some (.arr (r0 :: _)) => r0.truthy
  | _ => false

/-- `r0.output ?? r0.content ?? r0.text ?? JSON.stringify(r0)` for the first
element of `results`. -/
def resultsExtract (v : JsVal) : Option JsVal :=
  match getProp v "results" with
  | some (.arr (r0 :: _)) =>
    some ((nsGet r0 "output" <|> nsGet r0 "content" <|> nsGet r0 "text").getD
      (.str r0.stringify))
  | _ => none

/-- Guard of the `choices` branch:
`respJson.choices && Array.isArray(respJson.choices) && respJson.choices[0]`. -/
def choicesCond (v : JsVal) : Bool :=
  match getProp v "choices" with
  | some (.arr (c0 :: _)) => c0.truthy
  | _ => false

/-- `choices[0].text ?? choices[0].message?.content ?? JSON.stringify(choices[0])`. -/
def choicesExtract (v : JsVal) : Option JsVal :=
  match getProp v "choices" with
  | some (.arr (c0 :: _)) =>
    some ((nsGet c0 "text" <|> (nsGet c0 "message").bind fun m => nsGet m "content").getD
      (.str c0.stringify))
  | _ => none

/-- Guard of the error-descriptor branch: `respJson.detail && respJson.detail.error`. -/
def detailCond (v : JsVal) : Bool :=
  match getProp v "detail" with
  | some d => d.truthy && truthyOpt (getProp d "error")
  | none => false

/-- `extractTextFromDeepInfra` (server.js lines 37–51): best-effort
normalization of the upstream text payload.  `none` models the JS `null`
returned for falsy payloads. -/
def extractTextFromDeepInfra (respJson : JsVal) : Option JsVal :=
  if !respJson.truthy then none
  else if respJson.isStr then some respJson
  else if truthyOpt (getProp respJson "output") then getProp respJson "output"
  else if resultsCond respJson then resultsExtract respJson
  else if choicesCond respJson then choicesExtract respJson
  else if detailCond respJson then
    some (.str ((getProp respJson "detail").getD .null).stringify)
  else some (.str respJson.stringify)

/-! ### The `POST /api/generate-story` handler -/

/-- Outcome of the upstream text call (`fetchWithTimeout` + `resp.json()`):
a 2xx response with parsed JSON body, a non-2xx response with its body
text, or a thrown network/timeout error. -/
inductive TextOutcome where
  | ok : JsVal → TextOutcome
  | httpErr : Nat → String → TextOutcome
  | netErr : String → TextOutcome

/-- Outcome of one upstream image call: 2xx with parsed JSON, non-2xx with
body text, or a thrown (unexpected) exception. -/
inductive ImgOutcome where
  | ok : JsVal → ImgOutcome
  | httpErr : Nat → String → ImgOutcome
  | exn : String → ImgOutcome

/-- An HTTP response sent by the handler: status code and JSON body
(`res.json` sends status 200). -/
structure HttpResponse where
  status : Nat
  body : JsVal

/-- The destructuring defaults of line 55:
`const { genre = "fantasy", characters = [], paragraphs = 3,
imagesPerParagraph = false } = req.body`. -/
def reqField (body : JsVal) (k : String) (dflt : JsVal) : JsVal :=
  (getProp body k).getD dflt

/-- Line 56: `Array.isArray(characters) ? characters.join(", ") : characters`. -/
def charStrOf (characters : JsVal) : JsVal :=
  match characters with
  | .arr xs => .str (arrJoin ", " xs)
  | v => v

/-- `bodyText.toLowerCase().includes("balance") ||
bodyText.toLowerCase().includes("top-up")` (line 94), for ASCII content. -/
def startsWithL : List Char → List Char → Bool
  | [], _ => true
  | _ :: _, [] => false
  | a :: as, b :: bs => a = b && startsWithL as bs

/-- `String.prototype.includes` on character lists. -/
def hasSubstr (needle : List Char) : List Char → Bool
  | [] => needle.isEmpty
  | c :: rest => startsWithL needle (c :: rest) || hasSubstr needle rest

/-- ASCII lowercasing (JS `toLowerCase` restricted to the ASCII range the
balance heuristic inspects). -/
def lowerCh (c : Char) : Char :=
  if 65 ≤ c.toNat && c.toNat ≤ 90 then Char.ofNat (c.toNat + 32) else c

/-- The balance/top-up detection heuristic of line 94. -/
def balanceHit (bodyText : String) : Bool :=
  hasSubstr "balance".data (bodyText.data.map lowerCh)
    || hasSubstr "top-up".data (bodyText.data.map lowerCh)

/-- One dummy paragraph (lines 72 and 109; `variant` is `"short"` for the
no-key fallback and `"fallback"` for the error fallback). -/
def dummyPara (variant : String) (genre charStr : JsVal) (i : Nat) : String :=
  "Paragraph " ++ toString (i + 1) ++ ": A " ++ variant ++ " " ++ jsToStr genre
    ++ " scene featuring "
    ++ (if charStr.truthy then jsToStr charStr else "characters") ++ "."

/-- `Array.from({ length: Number(paragraphs || 1) }, ...)`'s length:
`NaN` and negative lengths yield an empty array. -/
def fromLength (n : Option Int) : Nat :=
  match n with
  | none => 0
  | some k => k.toNat

/-- The synthetic fallback response (lines 71–75 and 107–112): `story` is
the paragraphs joined with a blank line plus the preface suffix, `images`
is empty. -/
def fallbackResponse (variant suffix : String) (genre characters paragraphs : JsVal) :
    HttpResponse :=
  let charStr := charStrOf characters
  let L := fromLength (jsToNumber (if paragraphs.truthy then paragraphs else .num 1))
  let paragraphsArr := (List.range L).map (dummyPara variant genre charStr)
  let dummyStory := String.intercalate "\n\n" paragraphsArr ++ suffix
  ⟨200, .obj [("story", .str dummyStory),
              ("paragraphs", .arr (paragraphsArr.map JsVal.str)),
              ("images", .arr [])]⟩

/-- Prepend a character to the first segment of a split result. -/
def consHead (c : Char) : List (List Char) → List (List Char)
  | [] => [[c]]
  | g :: gs => (c :: g) :: gs

/-- `storyText.split(/\n{1,}/)` at the character level: split at maximal
runs of newlines (the flag records whether the previous character was a
newline, so a run produces a single boundary). -/
def splitRunsAux (afterNL : Bool) : List Char → List (List Char)
  | [] => [[]]
  | c :: rest =>
    if c = '\n' then
      if afterNL then splitRunsAux true rest else [] :: splitRunsAux true rest
    else consHead c (splitRunsAux false rest)

/-- `s.split(/\n{1,}/)` as strings. -/
def splitRuns (s : String) : List String :=
  (splitRunsAux false s.data).map String.mk

/-- Truthiness of `p.trim()`: the segment has a non-whitespace character
(JS `trim` removes whitespace; the trimmed string is truthy iff nonempty). -/
def isJsWsCh (c : Char) : Bool :=
  c = ' ' || c = '\t' || c = '\n' || c = '\r' || c = '\x0b' || c = '\x0c'

/-- `p.trim()` is truthy. -/
def trimTruthy (p : String) : Bool := !p.data.all isJsWsCh

/-- `l.slice(0, e)` where `e` is the `Number`-coerced bound (`none` = NaN,
which clamps to 0; negative bounds count from the end). -/
def sliceTo (l : List String) (e : Option Int) : List String :=
  match e with
  | none => []
  | some k => if k < 0 then l.take (l.length - k.natAbs) else l.take k.toNat

/-- Line 123: split the extracted story into the paragraph segments used
for image generation.  A non-string story value is used whole as a single
segment; a string is split on newline runs, blank segments discarded, and
the result capped by the requested count. -/
def paraArrOf (storyText : JsVal) (paragraphs : JsVal) : List JsVal :=
  match storyText with
  | .str s => (sliceTo ((splitRuns s).filter trimTruthy) (jsToNumber paragraphs)).map JsVal.str
  | v => [v]

/-- Line 145: `imgJson?.output_url ?? imgJson?.url ?? imgJson?.results?.[0]?.output ?? null`. -/
def extractImageUrl (imgJson : JsVal) : Option JsVal :=
  nsGet imgJson "output_url" <|> nsGet imgJson "url"
    <|> ((nsGet imgJson "results").bind fun r => (jsIdx0 r).bind fun r0 => nsGet r0 "output")

/-- The image slot produced for one paragraph from a non-throwing upstream
outcome (lines 136–147). -/
def slotOfOutcome : ImgOutcome → JsVal
  | .httpErr status txt =>
    .obj [("error", .str ("image_upstream_" ++ toString status)), ("detail", .str txt)]
  | .ok imgJson =>
    match extractImageUrl imgJson with
    | some u => if u.truthy then .obj [("url", u)] else .obj [("raw", imgJson)]
    | none => .obj [("raw", imgJson)]
  | .exn msg =>
    .obj [("error", .str "image_generation_failed"), ("message", .str msg)]

/-- The sequential per-paragraph image loop (lines 124–152) with the
enclosing `try`/`catch`: a non-2xx outcome records an error slot and
continues; a thrown exception aborts the loop, appending a single
`image_generation_failed` slot after the results already collected. -/
def imageLoopGo (imgOutcome : Nat → ImgOutcome) : Nat → List JsVal → List JsVal
  | _, [] => []
  | i, _ :: rest =>
    match imgOutcome i with
    | .exn msg => [.obj [("error", .str "image_generation_failed"), ("message", .str msg)]]
    | o => slotOfOutcome o :: imageLoopGo imgOutcome (i + 1) rest

/-- Whether an image-call outcome models a thrown exception. -/
def ImgOutcome.isExn : ImgOutcome → Bool
  | .exn _ => true
  | _ => false

/-- Line 116: `extractTextFromDeepInfra(textResp) ?? JSON.stringify(textResp)`. -/
def storyTextOf (textResp : JsVal) : JsVal :=
  (extractTextFromDeepInfra textResp).getD (.str textResp.stringify)

/-- The `POST /api/generate-story` handler (lines 53–162).  `hasKey` models
`DEEPINFRA_API_KEY` being nonempty, `devFallback` the `DEV_FALLBACK` flag;
the upstream calls are abstracted by the `textOutcome` and `imgOutcome`
oracles (the image oracle is indexed by paragraph position).  The prompt
strings of lines 59 and 126 only feed the upstream requests, which the
oracles abstract, so they are not modelled. -/
def generateStory (hasKey devFallback : Bool) (body : JsVal)
    (textOutcome : TextOutcome) (imgOutcome : Nat → ImgOutcome) : HttpResponse :=
  let genre := reqField body "genre" (.str "fantasy")
  let characters := reqField body "characters" (.arr [])
  let paragraphs := reqField body "paragraphs" (.num 3)
  let imagesPerParagraph := reqField body "imagesPerParagraph" (.bool false)
  if !hasKey && devFallback then
    fallbackResponse "short" "\n\nPreface: This is a placeholder summary." genre characters paragraphs
  else
    match textOutcome with
    | .httpErr status bodyText =>
      if balanceHit bodyText then
        ⟨402, .obj [("code", .str "insufficient_balance"),
                    ("message", .str "DeepInfra account has insufficient balance. Top up to enable inference."),
                    ("detail", .str bodyText)]⟩
      else
        ⟨502, .obj [("code", .str "upstream_error"),
                    ("status", .num status),
                    ("detail", .str bodyText)]⟩
    | .netErr msg =>
      if devFallback then
        fallbackResponse "fallback" "\n\nPreface: This is a fallback placeholder." genre characters paragraphs
      else
        ⟨502, .obj [("error", .str "network_or_upstream"), ("message", .str msg)]⟩
    | .ok textResp =>
      let storyText := storyTextOf textResp
      let images : List JsVal :=
        if imagesPerParagraph.truthy then
          imageLoopGo imgOutcome 0 (paraArrOf storyText paragraphs)
        else []
      ⟨200, .obj [("story", .str (jsToStr storyText)),
                  ("raw", textResp),
                  ("images", .arr images)]⟩

/-! ### Lemmas about the image loop (for the partial-failure claims) -/

theorem imageLoopGo_clean (io : Nat → ImgOutcome) :
    ∀ (paras : List JsVal) (i : Nat),
      (∀ j, j < paras.length → (io (i + j)).isExn = false) →
      imageLoopGo io i paras
        = (List.range paras.length).map (fun j => slotOfOutcome (io (i + j))) := by
  intro paras
  induction paras with
  | nil => intro i _; simp [imageLoopGo]
  | cons p ps ih =>
    intro i h
    have h0 : (io i).isExn = false := by simpa using h 0 (by simp)
    have hrec := ih (i + 1) (fun j hj => by
      rw [show i + 1 + j = i + (j + 1) from by omega]
      exact h (j + 1) (by simpa using Nat.succ_lt_succ hj))
    have htail : List.map (fun j => slotOfOutcome (io (i + 1 + j))) (List.range ps.length)
        = List.map ((fun j => slotOfOutcome (io (i + j))) ∘ Nat.succ) (List.range ps.length) := by
      apply List.map_congr_left
      intro a _
      simp only [Function.comp]
      rw [show i + 1 + a = i + (a + 1) from by omega]
    cases ho : io i with
    | exn m => rw [ho] at h0; simp [ImgOutcome.isExn] at h0
    | ok j0 =>
      simp only [imageLoopGo, ho, hrec, htail, List.length_cons, List.range_succ_eq_map,
        List.map_cons, List.map_map, Nat.add_zero, List.cons.injEq]
    | httpErr st bt =>
      simp only [imageLoopGo, ho, hrec, htail, List.length_cons, List.range_succ_eq_map,
        List.map_cons, List.map_map, Nat.add_zero, List.cons.injEq]

theorem imageLoopGo_exn_at (io : Nat → ImgOutcome) :
    ∀ (k : Nat) (paras : List JsVal) (i : Nat) (msg : String),
      k < paras.length → io (i + k) = .exn msg →
      (∀ j, j < k → (io (i + j)).isExn = false) →
      imageLoopGo io i paras
        = (List.range k).map (fun j => slotOfOutcome (io (i + j)))
          ++ [.obj [("error", .str "image_generation_failed"), ("message", .str msg)]] := by
  intro k
  induction k with
  | zero =>
    intro paras i msg hk hexn _
    cases paras with
    | nil => simp at hk
    | cons p ps =>
      rw [Nat.add_zero] at hexn
      simp [imageLoopGo, hexn]
  | succ k' ih =>
    intro paras i msg hk hexn hpre
    cases paras with
    | nil => simp at hk
    | cons p ps =>
      have h0 : (io i).isExn = false := by simpa using hpre 0 (by omega)
      have hrec := ih ps (i + 1) msg (by simpa using Nat.lt_of_succ_lt_succ hk)
        (by rw [show i + 1 + k' = i + (k' + 1) from by omega]; exact hexn)
        (fun j hj => by
          rw [show i + 1 + j = i + (j + 1) from by omega]
          exact hpre (j + 1) (by omega))
      have htail : List.map (fun j => slotOfOutcome (io (i + 1 + j))) (List.range k')
          = List.map ((fun j => slotOfOutcome (io (i + j))) ∘ Nat.succ) (List.range k') := by
        apply List.map_congr_left
        intro a _
        simp only [Function.comp]
        rw [show i + 1 + a = i + (a + 1) from by omega]
      cases ho : io i with
      | exn m => rw [ho] at h0; simp [ImgOutcome.isExn] at h0
      | ok j0 =>
        simp only [imageLoopGo, ho, hrec, htail, List.range_succ_eq_map,
          List.map_cons, List.map_map, Nat.add_zero, List.cons_append, List.cons.injEq]
      | httpErr st bt =>
        simp only [imageLoopGo, ho, hrec, htail, List.range_succ_eq_map,
          List.map_cons, List.map_map, Nat.add_zero, List.cons_append, List.cons.injEq]

/-! ### Spec-side paragraph splitting (for the refinement claim about line 123)

`splitSingleNL` follows the spec's words — "splitting on one-or-more newline
boundaries, discarding blank segments" — by splitting at every single
newline; discarding blanks afterwards makes this equivalent to splitting at
maximal newline runs, which is what the source's regex split does. -/

/-- Split at every newline character (spec-side reading). -/
def splitSingleNL : List Char → List (List Char)
  | [] => [[]]
  | c :: rest =>
    if c = '\n' then [] :: splitSingleNL rest else consHead c (splitSingleNL rest)

/-- Non-blank segment test at the character level (`p.trim()` truthiness). -/
def nonBlankL (l : List Char) : Bool := !l.all isJsWsCh

theorem splitRuns_single_aligned : ∀ cs : List Char,
    (∃ g t1 t2, splitRunsAux false cs = g :: t1 ∧ splitSingleNL cs = g :: t2 ∧
      t1.filter nonBlankL = t2.filter nonBlankL) ∧
    (splitRunsAux true cs).filter nonBlankL = (splitSingleNL cs).filter nonBlankL := by
  intro cs
  induction cs with
  | nil => exact ⟨⟨[], [], [], rfl, rfl, rfl⟩, rfl⟩
  | cons c rest ih =>
    obtain ⟨⟨g, t1, t2, hg1, hg2, hft⟩, hq⟩ := ih
    by_cases hc : c = '\n'
    · subst hc
      constructor
      · refine ⟨[], splitRunsAux true rest, splitSingleNL rest, ?_, ?_, hq⟩
        · simp [splitRunsAux]
        · simp [splitSingleNL]
      · have : (splitRunsAux true ('\n' :: rest)) = splitRunsAux true rest := by
          simp [splitRunsAux]
        rw [this, hq]
        have : splitSingleNL ('\n' :: rest) = [] :: splitSingleNL rest := by
          simp [splitSingleNL]
        rw [this]
        simp [List.filter_cons, nonBlankL]
    · constructor
      · refine ⟨c :: g, t1, t2, ?_, ?_, hft⟩
        · simp [splitRunsAux, hc, hg1, consHead]
        · simp [splitSingleNL, hc, hg2, consHead]
      · have h1 : splitRunsAux true (c :: rest) = consHead c (splitRunsAux false rest) := by
          simp [splitRunsAux, hc]
        have h2 : splitSingleNL (c :: rest) = consHead c (splitSingleNL rest) := by
          simp [splitSingleNL, hc]
        rw [h1, h2, hg1, hg2]
        simp only [consHead, List.filter_cons]
        by_cases hb : nonBlankL (c :: g) = true
        · simp [hb, hft]
        · simp only [Bool.not_eq_true] at hb
          simp [hb, hft]

theorem splitRuns_filter_eq (s : String) :
    (splitRuns s).filter trimTruthy
      = ((splitSingleNL s.data).map String.mk).filter trimTruthy := by
  have hcomm : ∀ l : List (List Char),
      (l.map String.mk).filter trimTruthy = (l.filter nonBlankL).map String.mk := by
    intro l
    rw [List.filter_map]
    rfl
  obtain ⟨⟨g, t1, t2, hg1, hg2, hft⟩, _⟩ := splitRuns_single_aligned s.data
  rw [splitRuns, hcomm, hcomm, hg1, hg2]
  simp only [List.filter_cons]
  rw [hft]

/-! ### Claim theorems -/

/-- Negation of every recognized-shape guard of `extractTextFromDeepInfra`
for an object payload. -/
def unrecognizedObj (v : JsVal) : Bool :=
  !truthyOpt (getProp v "output") && !resultsCond v && !choicesCond v && !detailCond v

/-- C1 (counterexample): the extractor does not return every bare string
payload unchanged — the empty string is falsy in JavaScript, so the
`if (!respJson)` guard returns `null` for it. -/
theorem C1_extract_counterexample :
    extractTextFromDeepInfra (.str "") = none ∧
    ¬ extractTextFromDeepInfra (.str "") = some (.str "") :=
  ⟨rfl, fun h => Option.noConfusion h⟩

/-- C1 (amended): the extractor returns every nonempty bare string payload
unchanged (the empty string yields `null`); returns the first element's
`content` field for a `results` payload; returns the first element's
`text` field for a `choices` payload; and
for an object matching none of the recognized shapes returns its JSON
serialization, whose parse recovers the original object. -/
theorem C1_extract_amended :
    (∀ s : String, s ≠ "" → extractTextFromDeepInfra (.str s) = some (.str s)) ∧
    (∀ Y : String,
      extractTextFromDeepInfra (.obj [("results", .arr [.obj [("content", .str Y)]])])
        = some (.str Y)) ∧
    (∀ X : String,
      extractTextFromDeepInfra (.obj [("choices", .arr [.obj [("text", .str X)]])])
        = some (.str X)) ∧
    (∀ fs : List (String × JsVal),
      unrecognizedObj (.obj fs) = true → JsVal.wfB (.obj fs) = true →
      extractTextFromDeepInfra (.obj fs) = some (.str (JsVal.stringify (.obj fs))) ∧
      jsonParse (JsVal.stringify (.obj fs)) = some (.obj fs)) := by
  refine ⟨?_, ?_, ?_, ?_⟩
  · intro s hs
    have ht : JsVal.truthy (.str s) = true := by
      simp [JsVal.truthy, bne_iff_ne, hs]
    simp [extractTextFromDeepInfra, ht, JsVal.isStr]
  · intro Y
    rfl
  · intro X
    rfl
  · intro fs h1 _
    simp only [unrecognizedObj, Bool.and_eq_true, Bool.not_eq_true', Bool.not_eq_true] at h1
    obtain ⟨⟨⟨ho, hr⟩, hc⟩, hd⟩ := h1
    constructor
    · simp [extractTextFromDeepInfra, JsVal.truthy, JsVal.isStr, ho, hr, hc, hd]
    · exact jsonParse_stringify (.obj fs)

/-- C1 (witness): the amended extractor claim at concrete payloads. -/
theorem C1_extract_witness :
    extractTextFromDeepInfra (.str "Z") = some (.str "Z") ∧
    extractTextFromDeepInfra (.obj [("results", .arr [.obj [("content", .str "Y")]])])
      = some (.str "Y") ∧
    extractTextFromDeepInfra (.obj [("choices", .arr [.obj [("text", .str "X")]])])
      = some (.str "X") ∧
    (extractTextFromDeepInfra (.obj [("foo", .str "bar")])
        = some (.str (JsVal.stringify (.obj [("foo", .str "bar")]))) ∧
      jsonParse (JsVal.stringify (.obj [("foo", .str "bar")]))
        = some (.obj [("foo", .str "bar")])) :=
  ⟨C1_extract_amended.1 "Z" (by decide),
   C1_extract_amended.2.1 "Y",
   C1_extract_amended.2.2.1 "X",
   C1_extract_amended.2.2.2 [("foo", .str "bar")] rfl rfl⟩

/-- C6 (counterexample): when splitting finds no non-blank segments the
paragraph list is empty — the whole story is NOT used as a single segment
(the single-segment branch of line 123 applies only to non-string values). -/
theorem C6_split_counterexample :
    paraArrOf (.str "\n") (.num 3) = [] ∧
    ¬ paraArrOf (.str "\n") (.num 3) = [.str "\n"] :=
  ⟨rfl, fun h => List.noConfusion h⟩

/-- C6 (amended): for a string story the paragraph segments are obtained by
splitting at newline boundaries, discarding blank segments and capping at
the requested count (in particular, no non-blank segments means no image
segments); a non-string story value is used whole as a single segment. -/
theorem C6_split_amended :
    (∀ (s : String) (p : JsVal) (n : Int), jsToNumber p = some n → 0 ≤ n →
      paraArrOf (.str s) p
        = ((((splitSingleNL s.data).map String.mk).filter trimTruthy).take n.toNat).map .str) ∧
    (∀ (v p : JsVal), v.isStr = false → paraArrOf v p = [v]) ∧
    (∀ (s : String) (p : JsVal), (splitRuns s).filter trimTruthy = [] →
      paraArrOf (.str s) p = []) := by
  refine ⟨?_, ?_, ?_⟩
  · intro s p n hp hn
    simp only [paraArrOf, hp, sliceTo]
    rw [if_neg (by omega), splitRuns_filter_eq]
  · intro v p hv
    cases v <;> simp [JsVal.isStr] at hv ⊢ <;> rfl
  · intro s p hempty
    simp only [paraArrOf, hempty, sliceTo]
    cases jsToNumber p with
    | none => rfl
    | some k => simp

/-- C6 (witness): the amended splitting claim at concrete inputs. -/
theorem C6_split_witness :
    paraArrOf (.str "a\n\nb\nc") (.num 2)
      = ((((splitSingleNL ("a\n\nb\nc" : String).data).map String.mk).filter
          trimTruthy).take ((2 : Int)).toNat).map .str ∧
    paraArrOf (.num 5) (.num 3) = [.num 5] ∧
    paraArrOf (.str "\n") (.num 7) = [] :=
  ⟨C6_split_amended.1 "a\n\nb\nc" (.num 2) 2 rfl (by decide),
   C6_split_amended.2.1 (.num 5) (.num 3) rfl,
   C6_split_amended.2.2 "\n" (.num 7) rfl⟩

/-- C2: with fallback mode enabled and no API key, any requested paragraph
count N in [1,10] yields a 200 response whose `paragraphs` field holds
exactly N synthetic paragraph strings, whose `story` is those paragraphs
joined with a blank line plus the fixed preface suffix, and whose `images`
field is empty. -/
theorem C2_fallback_story (N : Nat) (hN1 : 1 ≤ N) (hN10 : N ≤ 10) (genre : String)
    (chars : List String) (ipp : JsVal) (t : TextOutcome) (io : Nat → ImgOutcome) :
    (generateStory false true
        (.obj [("genre", .str genre), ("characters", .arr (chars.map .str)),
          ("paragraphs", .num N), ("imagesPerParagraph", ipp)]) t io).status = 200 ∧
    ((List.range N).map
        (dummyPara "short" (.str genre) (charStrOf (.arr (chars.map .str))))).length = N ∧
    getProp (generateStory false true
        (.obj [("genre", .str genre), ("characters", .arr (chars.map .str)),
          ("paragraphs", .num N), ("imagesPerParagraph", ipp)]) t io).body "paragraphs"
      = some (.arr (((List.range N).map
          (dummyPara "short" (.str genre) (charStrOf (.arr (chars.map .str))))).map .str)) ∧
    getProp (generateStory false true
        (.obj [("genre", .str genre), ("characters", .arr (chars.map .str)),
          ("paragraphs", .num N), ("imagesPerParagraph", ipp)]) t io).body "story"
      = some (.str (String.intercalate "\n\n"
            ((List.range N).map
              (dummyPara "short" (.str genre) (charStrOf (.arr (chars.map .str)))))
          ++ "\n\nPreface: This is a placeholder summary.")) ∧
    getProp (generateStory false true
        (.obj [("genre", .str genre), ("characters", .arr (chars.map .str)),
          ("paragraphs", .num N), ("imagesPerParagraph", ipp)]) t io).body "images"
      = some (.arr []) := by
  have hT : JsVal.truthy (.num (N : Int)) = true := by
    simp only [JsVal.truthy, bne_iff_ne, ne_eq, Int.natCast_eq_zero]
    omega
  have hL : fromLength (jsToNumber (.num (N : Int))) = N := by
    simp [jsToNumber, fromLength]
  simp only [generateStory, Bool.not_false, Bool.and_self, if_true, reqField, getProp,
    lookupField, fallbackResponse, String.reduceEq, reduceIte, Option.getD_some, hT, hL]
  simp

/-- C4: when the upstream text endpoint returns non-2xx, a body containing
"balance" or "top-up" (case-insensitively) yields HTTP 402 with code
`insufficient_balance`; any other non-2xx body yields the generic
`upstream_error` with HTTP 502 and the upstream status echoed. -/
theorem C4_balance_classification (hasKey devFallback : Bool) (body : JsVal) (status : Nat)
    (bodyText : String) (io : Nat → ImgOutcome)
    (hreach : hasKey = true ∨ devFallback = false) :
    (balanceHit bodyText = true →
      (generateStory hasKey devFallback body (.httpErr status bodyText) io).status = 402 ∧
      getProp (generateStory hasKey devFallback body (.httpErr status bodyText) io).body "code"
        = some (.str "insufficient_balance") ∧
      getProp (generateStory hasKey devFallback body (.httpErr status bodyText) io).body "detail"
        = some (.str bodyText)) ∧
    (balanceHit bodyText = false →
      (generateStory hasKey devFallback body (.httpErr status bodyText) io).status = 502 ∧
      getProp (generateStory hasKey devFallback body (.httpErr status bodyText) io).body "code"
        = some (.str "upstream_error") ∧
      getProp (generateStory hasKey devFallback body (.httpErr status bodyText) io).body "status"
        = some (.num status)) := by
  have hguard : (!hasKey && devFallback) = false := by
    rcases hreach with h | h <;> simp [h]
  constructor
  · intro hb
    simp [generateStory, hguard, hb, getProp, lookupField]
  · intro hb
    simp [generateStory, hguard, hb, getProp, lookupField]

/-- C5: a network failure or timeout of the upstream text call with
fallback mode enabled yields HTTP 200 with the synthetic fallback story
(fallback preface, `paragraphs` field present, no `raw` field —
distinguishing it from the real-upstream variant, which always carries
`raw` and no `paragraphs`); with fallback disabled the same failure yields
the 502 `network_or_upstream` error. -/
theorem C5_network_fallback (body : JsVal) (msg : String) (io : Nat → ImgOutcome) :
    ((generateStory true true body (.netErr msg) io).status = 200 ∧
      (generateStory true true body (.netErr msg) io)
        = fallbackResponse "fallback" "\n\nPreface: This is a fallback placeholder."
            (reqField body "genre" (.str "fantasy")) (reqField body "characters" (.arr []))
            (reqField body "paragraphs" (.num 3)) ∧
      getProp (generateStory true true body (.netErr msg) io).body "story"
        = some (.str (String.intercalate "\n\n"
            ((List.range (fromLength (jsToNumber
                (if (reqField body "paragraphs" (.num 3)).truthy then
                  reqField body "paragraphs" (.num 3) else .num 1)))).map
              (dummyPara "fallback" (reqField body "genre" (.str "fantasy"))
                (charStrOf (reqField body "characters" (.arr [])))))
            ++ "\n\nPreface: This is a fallback placeholder.")) ∧
      getProp (generateStory true true body (.netErr msg) io).body "raw" = none) ∧
    (∀ hasKey, (generateStory hasKey false body (.netErr msg) io).status = 502 ∧
      getProp (generateStory hasKey false body (.netErr msg) io).body "error"
        = some (.str "network_or_upstream") ∧
      getProp (generateStory hasKey false body (.netErr msg) io).body "message"
        = some (.str msg)) ∧
    (∀ (payload : JsVal) (df : Bool),
      getProp (generateStory true df body (.ok payload) io).body "raw" = some payload ∧
      getProp (generateStory true df body (.ok payload) io).body "paragraphs" = none) := by
  refine ⟨⟨rfl, rfl, ?_, ?_⟩, ?_, ?_⟩
  · simp [generateStory, fallbackResponse, getProp, lookupField]
  · simp [generateStory, fallbackResponse, getProp, lookupField]
  · intro hasKey
    have hguard : (!hasKey && false) = false := by simp
    refine ⟨?_, ?_, ?_⟩ <;> simp [generateStory, hguard, getProp, lookupField]
  · intro payload df
    have hguard : (!true && df) = false := by simp
    refine ⟨?_, ?_⟩ <;> simp [generateStory, hguard, getProp, lookupField]

/-- C9: every fallback response — no key configured, or upstream network
failure with fallback enabled — carries an empty `images` sequence
regardless of `imagesPerParagraph`; images are only attempted after a real
upstream text success. -/
theorem C9_fallback_images_empty (body : JsVal) (t : TextOutcome) (msg : String)
    (io : Nat → ImgOutcome) :
    getProp (generateStory false true body t io).body "images" = some (.arr []) ∧
    getProp (generateStory true true body (.netErr msg) io).body "images" = some (.arr []) := by
  constructor
  · simp [generateStory, fallbackResponse, getProp, lookupField]
  · simp [generateStory, fallbackResponse, getProp, lookupField]

/-- C10: missing request fields get the defaults genre "fantasy", empty
character list, paragraph count 3 and images disabled (so an empty body
produces three default-genre paragraphs), and a non-array `characters`
value is used verbatim rather than comma-joined. -/
theorem C10_request_defaults :
    (∀ body : JsVal, getProp body "genre" = none →
      reqField body "genre" (.str "fantasy") = .str "fantasy") ∧
    (∀ body : JsVal, getProp body "characters" = none →
      reqField body "characters" (.arr []) = .arr []) ∧
    (∀ body : JsVal, getProp body "paragraphs" = none →
      reqField body "paragraphs" (.num 3) = .num 3) ∧
    (∀ body : JsVal, getProp body "imagesPerParagraph" = none →
      reqField body "imagesPerParagraph" (.bool false) = .bool false) ∧
    (∀ s : String, charStrOf (.str s) = .str s) ∧
    (((List.range 3).map (dummyPara "short" (.str "fantasy") (.str ""))).length = 3 ∧
      getProp (generateStory false true (.obj []) (.netErr "e") (fun _ => .exn "e")).body
          "paragraphs"
        = some (.arr (((List.range 3).map
            (dummyPara "short" (.str "fantasy") (.str ""))).map .str))) := by
  refine ⟨?_, ?_, ?_, ?_, ?_, ?_, ?_⟩
  · intro body h; simp [reqField, h]
  · intro body h; simp [reqField, h]
  · intro body h; simp [reqField, h]
  · intro body h; simp [reqField, h]
  · intro s; rfl
  · rfl
  · rfl

/-- C8 (counterexample): the service does not bound the paragraph count to
1–10 — a request with `paragraphs` 50 is processed as-is, producing 50
paragraphs. -/
theorem C8_count_counterexample :
    getProp (generateStory false true (.obj [("paragraphs", .num 50)]) (.netErr "x")
        (fun _ => .exn "x")).body "paragraphs"
      = some (.arr (((List.range 50).map
          (dummyPara "short" (.str "fantasy") (.str ""))).map .str)) ∧
    ((List.range 50).map (dummyPara "short" (.str "fantasy") (.str ""))).length = 50 ∧
    ¬ (50 : Nat) ≤ 10 :=
  ⟨rfl, by simp, by omega⟩

/-- C8 (amended): the paragraph count used by the service is the request's
`paragraphs` value without range validation: every integer n ≥ 1, including
values above 10, produces exactly n fallback paragraphs. -/
theorem C8_count_unbounded (n : Nat) (hn : 1 ≤ n) (t : TextOutcome) (io : Nat → ImgOutcome) :
    getProp (generateStory false true (.obj [("paragraphs", .num n)]) t io).body "paragraphs"
      = some (.arr (((List.range n).map
          (dummyPara "short" (.str "fantasy") (.str ""))).map .str)) ∧
    ((List.range n).map (dummyPara "short" (.str "fantasy") (.str ""))).length = n := by
  have hT : JsVal.truthy (.num (n : Int)) = true := by
    simp only [JsVal.truthy, bne_iff_ne, ne_eq, Int.natCast_eq_zero]
    omega
  have hL : fromLength (jsToNumber (.num (n : Int))) = n := by
    simp [jsToNumber, fromLength]
  constructor
  · simp only [generateStory, Bool.not_false, Bool.and_self, if_true, reqField, getProp,
      lookupField, fallbackResponse, String.reduceEq, reduceIte, Option.getD_some,
      Option.getD_none, hT, hL]
    rfl
  · simp

/-- C3: with three paragraph segments and exactly one image call returning
non-2xx, the response's `images` has exactly 3 slots — an error descriptor
at the failed index and successful url references elsewhere; paragraphs
after the failure are still processed. -/
theorem C3_image_partial_failure (df : Bool) (tj body : JsVal) (io : Nat → ImgOutcome)
    (p0 p1 p2 : JsVal) (j st : Nat) (bt : String) (u : Nat → String)
    (hipp : (reqField body "imagesPerParagraph" (.bool false)).truthy = true)
    (hpar : paraArrOf (storyTextOf tj) (reqField body "paragraphs" (.num 3)) = [p0, p1, p2])
    (hj : j < 3)
    (hfail : io j = .httpErr st bt)
    (hok : ∀ i, i < 3 → i ≠ j → io i = .ok (.obj [("url", .str (u i))]))
    (hu : ∀ i, i < 3 → i ≠ j → u i ≠ "") :
    ∃ imgs : List JsVal,
      getProp (generateStory true df body (.ok tj) io).body "images" = some (.arr imgs) ∧
      imgs.length = 3 ∧
      imgs[j]? = some (.obj [("error", .str ("image_upstream_" ++ toString st)),
        ("detail", .str bt)]) ∧
      ∀ i, i < 3 → i ≠ j → imgs[i]? = some (.obj [("url", .str (u i))]) := by
  have hslot_ok : ∀ i, i < 3 → i ≠ j → slotOfOutcome (io i) = .obj [("url", .str (u i))] := by
    intro i h1 h2
    rw [hok i h1 h2]
    have hne : (u i != "") = true := by simp [bne_iff_ne, hu i h1 h2]
    simp [slotOfOutcome, extractImageUrl, nsGet, getProp, lookupField, JsVal.truthy, hne]
  have hslot_err : slotOfOutcome (io j)
      = .obj [("error", .str ("image_upstream_" ++ toString st)), ("detail", .str bt)] := by
    rw [hfail]
    rfl
  have hclean : imageLoopGo io 0 [p0, p1, p2]
      = (List.range 3).map (fun i => slotOfOutcome (io (0 + i))) := by
    apply imageLoopGo_clean
    intro i hi
    simp only [List.length_cons, List.length_nil] at hi
    rcases Nat.lt_or_ge i j with hij | hij
    · have := hok i (by omega) (by omega)
      rw [Nat.zero_add, this]
      rfl
    · rcases Nat.eq_or_lt_of_le hij with heq | hlt
      · rw [Nat.zero_add, ← heq, hfail]
        rfl
      · have := hok i (by omega) (by omega)
        rw [Nat.zero_add, this]
        rfl
  have hlist : imageLoopGo io 0 [p0, p1, p2]
      = [slotOfOutcome (io 0), slotOfOutcome (io 1), slotOfOutcome (io 2)] := by
    rw [hclean]
    rfl
  refine ⟨imageLoopGo io 0 [p0, p1, p2], ?_, ?_, ?_, ?_⟩
  · simp [generateStory, hipp, hpar, getProp, lookupField]
  · rw [hlist]; rfl
  · rw [hlist]
    interval_cases j
    · simp [hslot_err]
    · simp [hslot_err]
    · simp [hslot_err]
  · intro i h1 h2
    rw [hlist]
    interval_cases i
    · simp [hslot_ok 0 (by omega) h2]
    · simp [hslot_ok 1 (by omega) h2]
    · simp [hslot_ok 2 (by omega) h2]

/-- C7: an exception thrown during the image loop aborts the remaining
paragraphs, appends exactly one `image_generation_failed` descriptor after
the already-collected slots, and the request still completes with a 200
response carrying the story and those images. -/
theorem C7_exception_abort (df : Bool) (tj body : JsVal) (io : Nat → ImgOutcome)
    (paras : List JsVal) (k : Nat) (msg : String)
    (hipp : (reqField body "imagesPerParagraph" (.bool false)).truthy = true)
    (hpar : paraArrOf (storyTextOf tj) (reqField body "paragraphs" (.num 3)) = paras)
    (hk : k < paras.length)
    (hexn : io k = .exn msg)
    (hpre : ∀ i, i < k → (io i).isExn = false) :
    (generateStory true df body (.ok tj) io).status = 200 ∧
    getProp (generateStory true df body (.ok tj) io).body "story"
      = some (.str (jsToStr (storyTextOf tj))) ∧
    getProp (generateStory true df body (.ok tj) io).body "images"
      = some (.arr ((List.range k).map (fun i => slotOfOutcome (io i))
          ++ [.obj [("error", .str "image_generation_failed"), ("message", .str msg)]])) ∧
    ((List.range k).map (fun i => slotOfOutcome (io i))
        ++ [JsVal.obj [("error", JsVal.str "image_generation_failed"),
              ("message", JsVal.str msg)]]).length
      = k + 1 := by
  have hloop : imageLoopGo io 0 paras
      = (List.range k).map (fun i => slotOfOutcome (io i))
        ++ [.obj [("error", .str "image_generation_failed"), ("message", .str msg)]] := by
    have := imageLoopGo_exn_at io k paras 0 msg hk (by simpa using hexn)
      (fun i hi => by simpa using hpre i hi)
    simpa using this
  refine ⟨?_, ?_, ?_, ?_⟩
  · rfl
  · simp [generateStory, getProp, lookupField]
  · simp [generateStory, hipp, hpar, hloop, getProp, lookupField]
  · simp

/-- C2 (witness): the fallback-story claim at N = 3. -/
theorem C2_fallback_story_witness :
    (generateStory false true
        (.obj [("genre", .str "fantasy"), ("characters", .arr (["Arya", "Tom"].map .str)),
          ("paragraphs", .num 3), ("imagesPerParagraph", .bool true)])
        (.netErr "boom") (fun _ => .exn "e")).status = 200 ∧
    ((List.range 3).map
        (dummyPara "short" (.str "fantasy") (charStrOf (.arr (["Arya", "Tom"].map .str))))).length
      = 3 ∧
    getProp (generateStory false true
        (.obj [("genre", .str "fantasy"), ("characters", .arr (["Arya", "Tom"].map .str)),
          ("paragraphs", .num 3), ("imagesPerParagraph", .bool true)])
        (.netErr "boom") (fun _ => .exn "e")).body "paragraphs"
      = some (.arr (((List.range 3).map
          (dummyPara "short" (.str "fantasy")
            (charStrOf (.arr (["Arya", "Tom"].map .str))))).map .str)) ∧
    getProp (generateStory false true
        (.obj [("genre", .str "fantasy"), ("characters", .arr (["Arya", "Tom"].map .str)),
          ("paragraphs", .num 3), ("imagesPerParagraph", .bool true)])
        (.netErr "boom") (fun _ => .exn "e")).body "story"
      = some (.str (String.intercalate "\n\n"
            ((List.range 3).map
              (dummyPara "short" (.str "fantasy") (charStrOf (.arr (["Arya", "Tom"].map .str)))))
          ++ "\n\nPreface: This is a placeholder summary.")) ∧
    getProp (generateStory false true
        (.obj [("genre", .str "fantasy"), ("characters", .arr (["Arya", "Tom"].map .str)),
          ("paragraphs", .num 3), ("imagesPerParagraph", .bool true)])
        (.netErr "boom") (fun _ => .exn "e")).body "images"
      = some (.arr []) :=
  C2_fallback_story 3 (by decide) (by decide) "fantasy" ["Arya", "Tom"] (.bool true)
    (.netErr "boom") (fun _ => .exn "e")

/-- C4 (witness): balance classification at concrete upstream bodies. -/
theorem C4_balance_witness :
    ((generateStory true true (.obj []) (.httpErr 402 "Insufficient Balance, top up")
        (fun _ => .exn "e")).status = 402 ∧
      getProp (generateStory true true (.obj [])
          (.httpErr 402 "Insufficient Balance, top up") (fun _ => .exn "e")).body "code"
        = some (.str "insufficient_balance") ∧
      getProp (generateStory true true (.obj [])
          (.httpErr 402 "Insufficient Balance, top up") (fun _ => .exn "e")).body "detail"
        = some (.str "Insufficient Balance, top up")) ∧
    ((generateStory true true (.obj []) (.httpErr 500 "internal error")
        (fun _ => .exn "e")).status = 502 ∧
      getProp (generateStory true true (.obj [])
          (.httpErr 500 "internal error") (fun _ => .exn "e")).body "code"
        = some (.str "upstream_error") ∧
      getProp (generateStory true true (.obj [])
          (.httpErr 500 "internal error") (fun _ => .exn "e")).body "status"
        = some (.num 500)) :=
  ⟨(C4_balance_classification true true (.obj []) 402 "Insufficient Balance, top up"
      (fun _ => .exn "e") (Or.inl rfl)).1 rfl,
   (C4_balance_classification true true (.obj []) 500 "internal error"
      (fun _ => .exn "e") (Or.inl rfl)).2 rfl⟩

/-- C8 (witness): the unbounded-count claim at n = 12 (outside 1–10). -/
theorem C8_count_unbounded_witness :
    getProp (generateStory false true (.obj [("paragraphs", .num 12)]) (.netErr "x")
        (fun _ => .exn "x")).body "paragraphs"
      = some (.arr (((List.range 12).map
          (dummyPara "short" (.str "fantasy") (.str ""))).map .str)) ∧
    ((List.range 12).map (dummyPara "short" (.str "fantasy") (.str ""))).length = 12 :=
  C8_count_unbounded 12 (by decide) (.netErr "x") (fun _ => .exn "x")

/-- C10 (witness): the defaults claim applied to a body missing all fields. -/
theorem C10_request_defaults_witness :
    reqField (.obj [("other", .num 1)]) "genre" (.str "fantasy") = .str "fantasy" ∧
    reqField (.obj [("other", .num 1)]) "characters" (.arr []) = .arr [] ∧
    reqField (.obj [("other", .num 1)]) "paragraphs" (.num 3) = .num 3 ∧
    reqField (.obj [("other", .num 1)]) "imagesPerParagraph" (.bool false) = .bool false ∧
    charStrOf (.str "Arya, Tom") = .str "Arya, Tom" :=
  ⟨C10_request_defaults.1 (.obj [("other", .num 1)]) rfl,
   C10_request_defaults.2.1 (.obj [("other", .num 1)]) rfl,
   C10_request_defaults.2.2.1 (.obj [("other", .num 1)]) rfl,
   C10_request_defaults.2.2.2.1 (.obj [("other", .num 1)]) rfl,
   C10_request_defaults.2.2.2.2.1 "Arya, Tom"⟩

/-- C3 (witness): three paragraphs with the second image call failing. -/
theorem C3_image_partial_failure_witness :
    ∃ imgs : List JsVal,
      getProp (generateStory true false
          (.obj [("imagesPerParagraph", .bool true), ("paragraphs", .num 3)])
          (.ok (.str "A\n\nB\n\nC"))
          (fun i => if i = 1 then .httpErr 500 "boom"
            else .ok (.obj [("url", .str "http://img")]))).body "images"
        = some (.arr imgs) ∧
      imgs.length = 3 ∧
      imgs[1]? = some (.obj [("error", .str ("image_upstream_" ++ toString 500)),
        ("detail", .str "boom")]) ∧
      ∀ i, i < 3 → i ≠ 1 →
        imgs[i]? = some (.obj [("url", .str ((fun _ : Nat => "http://img") i))]) :=
  C3_image_partial_failure false (.str "A\n\nB\n\nC")
    (.obj [("imagesPerParagraph", .bool true), ("paragraphs", .num 3)])
    (fun i => if i = 1 then .httpErr 500 "boom" else .ok (.obj [("url", .str "http://img")]))
    (.str "A") (.str "B") (.str "C") 1 500 "boom" (fun _ => "http://img")
    rfl rfl (by decide) rfl
    (fun i h1 h2 => by simp [h2])
    (fun i h1 h2 => by
      show "http://img" ≠ ""
      decide)

/-- C7 (witness): an exception at the second of three paragraphs. -/
theorem C7_exception_abort_witness :
    (generateStory true false
        (.obj [("imagesPerParagraph", .bool true), ("paragraphs", .num 3)])
        (.ok (.str "A\n\nB\n\nC"))
        (fun i => if i = 1 then .exn "boom"
          else .ok (.obj [("url", .str "http://img")]))).status = 200 ∧
    getProp (generateStory true false
        (.obj [("imagesPerParagraph", .bool true), ("paragraphs", .num 3)])
        (.ok (.str "A\n\nB\n\nC"))
        (fun i => if i = 1 then .exn "boom"
          else .ok (.obj [("url", .str "http://img")]))).body "story"
      = some (.str (jsToStr (storyTextOf (.str "A\n\nB\n\nC")))) ∧
    getProp (generateStory true false
        (.obj [("imagesPerParagraph", .bool true), ("paragraphs", .num 3)])
        (.ok (.str "A\n\nB\n\nC"))
        (fun i => if i = 1 then .exn "boom"
          else .ok (.obj [("url", .str "http://img")]))).body "images"
      = some (.arr ((List.range 1).map (fun i => slotOfOutcome
            ((fun i => if i = 1 then ImgOutcome.exn "boom"
              else ImgOutcome.ok (.obj [("url", .str "http://img")])) i))
          ++ [.obj [("error", .str "image_generation_failed"), ("message", .str "boom")]])) ∧
    ((List.range 1).map (fun i => slotOfOutcome
          ((fun i => if i = 1 then ImgOutcome.exn "boom"
            else ImgOutcome.ok (.obj [("url", .str "http://img")])) i))
        ++ [JsVal.obj [("error", JsVal.str "image_generation_failed"),
              ("message", JsVal.str "boom")]]).length
      = 1 + 1 :=
  C7_exception_abort false (.str "A\n\nB\n\nC")
    (.obj [("imagesPerParagraph", .bool true), ("paragraphs", .num 3)])
    (fun i => if i = 1 then .exn "boom" else .ok (.obj [("url", .str "http://img")]))
    [.str "A", .str "B", .str "C"] 1 "boom"
    rfl rfl (by decide) rfl
    (fun i hi => by
      have : i = 0 := by omega
      subst this
      rfl)
